import Mathlib

/-!
Shallow embedding of the `gparse`/`raman` package (matrix.py, util.py,
spectrum.py) in Lean 4, together with theorems settling the specification
claims about it.

Conventions of the embedding:
* Python floats are modelled by `ℚ` (the code performs only field
  operations apart from `math.sqrt`; square roots are applied at the level
  of theorem statements via `Real.sqrt`, keeping every definition
  computable).
* Functions that raise are modelled with `Except String` (the message of
  the `ValueError`) or `Option` (for `assert`).
* `raman/util.py` is the source for `linspace` and `integrate`;
  `gparse/matrix.py` and `gparse/spectrum.py` are the sources for the
  matrix and spectrum components.
-/

namespace Raman

/-- Embeds `raman/util.py linspace(start, end, number_of_points)`:
raises unless `start < end` and `number_of_points ≥ 2`, otherwise returns
`[start + interval*i for i in range(number_of_points)]` with
`interval = (end-start)/(number_of_points-1)`. -/
def linspace (start stop : ℚ) (number_of_points : ℕ) : Except String (List ℚ) :=
  if start ≥ stop then
    .error "The starting value must be less than the ending value."
  else if number_of_points < 2 then
    .error "The space must contain at least two points."
  else
    let interval := (stop - start) / ((number_of_points : ℚ) - 1)
    .ok ((List.range number_of_points).map fun i : ℕ => start + interval * (i : ℚ))

/-- Embeds the `while i < len(x_array) - 2` loop of `raman/util.py
integrate`: the accumulator `integral` gathers
`((y[i]+y[i+1])/2) * (x[i+1]-x[i])` for successive `i`.  Out-of-range
indexing cannot occur in the loop (the guard keeps `i+1 ≤ len-1`), so
`List.getD _ 0` faithfully renders the Python subscript. -/
def integrateGo (x_array y_array : List ℚ) (i : ℕ) (integral : ℚ) : ℚ :=
  if i < x_array.length - 2 then
    integrateGo x_array y_array (i + 1)
      (integral +
        ((y_array.getD i 0 + y_array.getD (i + 1) 0) / 2) *
          (x_array.getD (i + 1) 0 - x_array.getD i 0))
  else
    integral
termination_by x_array.length - 2 - i

/-- Embeds `raman/util.py integrate(x_array, y_array)`: the `assert
len(x_array) == len(y_array)` is modelled by returning `none` when the
lengths differ. -/
def integrate (x_array y_array : List ℚ) : Option ℚ :=
  if x_array.length = y_array.length then
    some (integrateGo x_array y_array 0 0)
  else
    none

/-- The summand of the midpoint rule at index `i`. -/
def integrandTerm (x_array y_array : List ℚ) (i : ℕ) : ℚ :=
  ((y_array.getD i 0 + y_array.getD (i + 1) 0) / 2) *
    (x_array.getD (i + 1) 0 - x_array.getD i 0)

/-- Modelled from the spec: `flatten(nested_sequence)` of `gparse/util.py`
(the module is not present under `src/`; only `raman/util.py` is, and it
lacks `flatten`): "concatenates sub-sequences preserving order". -/
def flatten (nested : List (List ℚ)) : List ℚ :=
  nested.flatten

/-- The class constant `DistanceMatrix.SUPPORTED_UNITS` of
`gparse/matrix.py`. -/
def SUPPORTED_UNITS : List String :=
  ["a", "angstroms", "nm", "nanometers"]

/-- The class constant `DistanceMatrix.DEFAULT_UNIT`. -/
def DEFAULT_UNIT : String := "angstroms"

/-- The state of a constructed `DistanceMatrix` of `gparse/matrix.py`: the
private 2D table `__matrix` and the `units` string. -/
structure DistanceMatrix where
  matrix : List (List ℚ)
  units : String
deriving DecidableEq

/-- Embeds `DistanceMatrix.__init__(matrix, units)`: the units must be one
of `SUPPORTED_UNITS`, otherwise a `ValueError` is raised. -/
def DistanceMatrix.make (matrix : List (List ℚ)) (units : String) :
    Except String DistanceMatrix :=
  if units ∈ SUPPORTED_UNITS then
    .ok ⟨matrix, units⟩
  else
    .error "Given units must be one of SUPPORTED_UNITS"

/-- Embeds `DistanceMatrix.__len__`: `0` when the table is empty, else the
maximum row length.  (`List.foldr max 0` over the row lengths agrees with
Python's `max(...)` on a non-empty list of naturals and supplies the `0`
of the empty branch.) -/
def DistanceMatrix.len (m : DistanceMatrix) : ℕ :=
  (m.matrix.map List.length).foldr max 0

/-- Embeds `DistanceMatrix.__rshift__(other)`: adds `other` to every cell,
keeping the units. -/
def DistanceMatrix.shift (m : DistanceMatrix) (other : ℚ) : DistanceMatrix :=
  { matrix := m.matrix.map fun row => row.map fun item => item + other
    units := m.units }

/-- Embeds the `flattened` property: `flatten(self.__matrix)`. -/
def DistanceMatrix.flattened (m : DistanceMatrix) : List ℚ :=
  flatten m.matrix

/-- Embeds `DistanceMatrix.__eq__(other)` for the case where `other` is
itself a `DistanceMatrix` (the `except (AttributeError, ValueError)`
branch concerns non-matrix operands only): `False` when the first
characters of the unit strings differ, else `False` exactly when some
`zip`-paired pair of cells (rows paired in order by the outer `zip`,
cells by the inner one) differs, else `True`. -/
def DistanceMatrix.beq (m other : DistanceMatrix) : Bool :=
  if ¬ m.units.front = other.units.front then
    false
  else
    (m.matrix.zip other.matrix).all fun rows =>
      (rows.1.zip rows.2).all fun items => items.1 == items.2

/-- Embeds `DistanceMatrix.rms_deviation(other, distance_threshold)` up to
the final `math.sqrt`: this definition returns the radicand, i.e. the mean
`sum(squared_differences) / len(squared_differences)`; the Python function
returns its square root, which theorem statements apply as `Real.sqrt`.
The guard `if distance_threshold:` follows Python truthiness: `None` and
`0` both select the unfiltered branch.  `ZeroDivisionError` from
`sum(...) / len(...)` on an empty list is modelled by the
`"division by zero"` error. -/
def DistanceMatrix.rms_deviation_sq (m other : DistanceMatrix)
    (distance_threshold : Option ℚ) : Except String ℚ :=
  if ¬ m.len = other.len then
    .error "Matrices have incompatible dimensions."
  else if ¬ m.units = other.units then
    .error "Matrices to compare must have the same units."
  else
    let squared_differences :=
      match distance_threshold with
      | some t =>
        if ¬ t = 0 then
          ((m.flattened.zip other.flattened).filter fun (p : ℚ × ℚ) =>
              decide (|p.1 - p.2| < t)).map fun (p : ℚ × ℚ) => (p.1 - p.2) ^ 2
        else
          (m.flattened.zip other.flattened).map fun (p : ℚ × ℚ) => (p.1 - p.2) ^ 2
      | none =>
        (m.flattened.zip other.flattened).map fun (p : ℚ × ℚ) => (p.1 - p.2) ^ 2
    if squared_differences.length = 0 then
      .error "division by zero"
    else
      .ok (squared_differences.sum / (squared_differences.length : ℚ))

/-- A CSV field after `line.strip().split(',')`, abstracting Python's
string-to-float parsing: `num v` is a token accepted by `float(...)`
carrying its value, `txt s` is a token rejected by it (so `is_numeric`
is false), e.g. the empty string `txt ""`. -/
inductive Field where
  | num (val : ℚ)
  | txt (s : String)
deriving DecidableEq

/-- `raman/util.py is_numeric` on an abstracted field. -/
def Field.is_numeric : Field → Bool
  | .num _ => true
  | .txt _ => false

/-- `float(item)` on a field already known to be numeric (the non-numeric
branch is unreachable under the `all is_numeric` guard of `from_csv`). -/
def Field.toVal : Field → ℚ
  | .num v => v
  | .txt _ => 0

/-- `line.remove('')`: removes the first field equal to the empty string,
or `none` when there is none (Python raises `ValueError`). -/
def removeFirstEmpty : List Field → Option (List Field)
  | [] => none
  | f :: fs =>
    if f = Field.txt "" then
      some fs
    else
      (removeFirstEmpty fs).map (f :: ·)

/-- The `[line.remove('') for line in lines]` statement of `from_csv`,
wrapped in `try ... except ValueError: pass`: lines are processed in
order, each losing its first empty field; the first line without an empty
field raises, so it and all later lines stay untouched. -/
def stripEmpties : List (List Field) → List (List Field)
  | [] => []
  | l :: ls =>
    match removeFirstEmpty l with
    | some l2 => l2 :: stripEmpties ls
    | none => l :: ls

/-- The main loop of `DistanceMatrix.from_csv` over the (stripped) lines,
carrying `highest_line_length`: a line of length `highest_line_length + 1`
whose fields are all numeric is converted and kept (and the expected
length advances); a line of that length with a non-numeric field falls
through silently (no `else` on the inner `if`); any other length raises
`ValueError`. -/
def buildMatrix : List (List Field) → ℕ → Except String (List (List ℚ))
  | [], _ => .ok []
  | line :: rest, highest_line_length =>
    if line.length = highest_line_length + 1 then
      if line.all Field.is_numeric then
        match buildMatrix rest (highest_line_length + 1) with
        | .ok m => .ok (line.map Field.toVal :: m)
        | .error e => .error e
      else
        buildMatrix rest highest_line_length
    else
      .error "Data lines in input file should be in order of ascending length."

/-- Embeds `DistanceMatrix.from_csv` from the point where the file content
has been read and split into comma-separated fields (the string-path
branch is I/O: extension check and reopen). -/
def from_csv (lines : List (List Field)) (units : String) :
    Except String DistanceMatrix :=
  match buildMatrix (stripEmpties lines) 0 with
  | .ok matrix => DistanceMatrix.make matrix units
  | .error e => .error e

/-- Embeds `gparse/spectrum.py lorentzian(x_value, amplitude, center,
width)`: `amplitude * (width**2 / ((x_value - center)**2 + width**2))`. -/
def lorentzian (x_value amplitude center width : ℚ) : ℚ :=
  amplitude * (width ^ 2 / ((x_value - center) ^ 2 + width ^ 2))

/-- The class constant `Spectrum.NUMBER_OF_POINTS` of
`gparse/spectrum.py`. -/
def NUMBER_OF_POINTS : ℕ := 5000

/-- The class constant `Spectrum.LORENTZIAN_WIDTH`. -/
def LORENTZIAN_WIDTH : ℚ := 3.3

/-- The state of a constructed `Spectrum` of `gparse/spectrum.py`.  The
constructor enforces `len(frequencies) == len(intensities) ≥ 1`; theorems
needing those facts take them as hypotheses. -/
structure Spectrum where
  frequencies : List ℚ
  intensities : List ℚ
  lorentzian_width : ℚ
deriving DecidableEq

/-- Python `min(...)` on a non-empty list (it raises on `[]`; `Spectrum`
construction guarantees non-emptiness, and the `0` of the empty branch is
never reached there). -/
def listMin : List ℚ → ℚ
  | [] => 0
  | x :: xs => xs.foldl min x

/-- Python `max(...)` on a non-empty list, as `listMin`. -/
def listMax : List ℚ → ℚ
  | [] => 0
  | x :: xs => xs.foldl max x

/-- Embeds the fit function built in `Spectrum.__init__`: the sum of one
`lorentzian` per `(frequency, intensity)` pair, with the spectrum's
width. -/
def Spectrum.fit_function (s : Spectrum) (x : ℚ) : ℚ :=
  ((s.frequencies.zip s.intensities).map fun (fi : ℚ × ℚ) =>
    lorentzian x fi.2 fi.1 s.lorentzian_width).sum

/-- Embeds `Spectrum.x_array(x_min, x_max, points)`.  The body reassigns
`x_min = x_min or min(self.frequencies)` (Python `or`: `None` and `0` are
falsy) and likewise `x_max`, but the return line ignores both and uses the
data extremes: `linspace(min(self.frequencies), max(self.frequencies),
points)`.  The two dead reassignments are kept as unused bindings. -/
def Spectrum.x_array (s : Spectrum) (x_min x_max : Option ℚ)
    (points : ℕ) : Except String (List ℚ) :=
  let _x_min : ℚ :=
    match x_min with
    | some v => if ¬ v = 0 then v else listMin s.frequencies
    | none => listMin s.frequencies
  let _x_max : ℚ :=
    match x_max with
    | some v => if ¬ v = 0 then v else listMax s.frequencies
    | none => listMax s.frequencies
  linspace (listMin s.frequencies) (listMax s.frequencies) points

/-- Embeds `Spectrum.as_list(points)`: the body is
`[self.fit_function(x) for x in self.x_array(points)]`, where the
positional argument `points` lands in `x_array`'s first parameter
`x_min`, and `x_array`'s own `points` parameter keeps its default
`NUMBER_OF_POINTS`. -/
def Spectrum.as_list (s : Spectrum) (points : ℚ) : Except String (List ℚ) :=
  (s.x_array (some points) none NUMBER_OF_POINTS).map fun xs =>
    xs.map s.fit_function

/-- The state of an `Atom` of `gparse/spectrum.py` relevant to `assign`:
the constructor stores `number`, `element` (Python ints), the displacement
`(x, y, z)` and the derived `eigen_sum = math.sqrt(x**2 + y**2 + x**2)`
(the source's literal formula: `y` squared once, `x` twice, `z` unused).
We store the radicand `eigen_sum_sq`; `eigen_sum` itself is
`Real.sqrt eigen_sum_sq` in theorem statements.  Filtering on
`eigen_sum != 0` and sorting by `eigen_sum` agree with filtering and
sorting on the radicand, since `Real.sqrt` is monotone and zero exactly on
the nonpositive reals and the radicand is a sum of squares. -/
structure Atom where
  number : ℤ
  element : ℤ
  x : ℚ
  y : ℚ
  z : ℚ
deriving DecidableEq

/-- The radicand of `Atom.eigen_sum`: `x**2 + y**2 + x**2` as in the
source. -/
def Atom.eigen_sum_sq (a : Atom) : ℚ :=
  a.x ^ 2 + a.y ^ 2 + a.x ^ 2

/-- The key order used by `sorted(self.atoms, key=lambda x: x.eigen_sum)`:
comparison of `eigen_sum` values, expressed on the radicands. -/
def atomLE (a b : Atom) : Prop :=
  a.eigen_sum_sq ≤ b.eigen_sum_sq

instance : DecidableRel atomLE := fun a b =>
  inferInstanceAs (Decidable (a.eigen_sum_sq ≤ b.eigen_sum_sq))

instance : IsTotal Atom atomLE :=
  ⟨fun a b => le_total a.eigen_sum_sq b.eigen_sum_sq⟩

instance : IsTrans Atom atomLE :=
  ⟨fun _ _ _ hab hbc => le_trans hab hbc⟩

/-- The state of a `SpectralPeak` of `gparse/spectrum.py`: the per-mode
scalars stored by the constructor and the atom list populated by the
parser. -/
structure SpectralPeak where
  number : ℤ
  frequency : ℚ
  reduced_mass : ℚ
  frc_const : ℚ
  ir_intensity : ℚ
  raman_activity : ℚ
  depolar_p : ℚ
  depolar_u : ℚ
  atoms : List Atom
deriving DecidableEq

/-- Embeds `SpectralPeak.assign(heavy_only)`:
`filter(lambda x: x.eigen_sum != 0 and (x.element > 1 or heavy_only is
False), sorted(self.atoms, key=...)[::-1])`.  Python's `sorted` is a
stable ascending sort, which `List.insertionSort` models exactly (any two
stable sorts agree); `[::-1]` is `List.reverse`. -/
def SpectralPeak.assign (p : SpectralPeak) (heavy_only : Bool) : List Atom :=
  ((List.insertionSort atomLE p.atoms).reverse).filter fun a =>
    decide (¬ a.eigen_sum_sq = 0 ∧ (1 < a.element ∨ heavy_only = false))

/-- Specification-side abbreviation: the squared cellwise differences of
two matrices over their flattened forms, unfiltered. -/
def sqDiffs (m n : DistanceMatrix) : List ℚ :=
  (m.flattened.zip n.flattened).map fun (p : ℚ × ℚ) => (p.1 - p.2) ^ 2

/-- Specification-side abbreviation: the flattened cell pairs whose
absolute difference is strictly below `t` (the qualifying pairs of the
threshold filter). -/
def qualPairs (m n : DistanceMatrix) (t : ℚ) : List (ℚ × ℚ) :=
  (m.flattened.zip n.flattened).filter fun (p : ℚ × ℚ) =>
    decide (|p.1 - p.2| < t)

/-! ## Theorems -/

theorem getD_map_range (f : ℕ → ℚ) {n i : ℕ} (h : i < n) :
    ((List.range n).map f).getD i 0 = f i := by
  rw [List.getD_eq_getElem?_getD]
  simp [List.getElem?_map, List.getElem?_range, h]

theorem integrateGo_eq (xs ys : List ℚ) :
    ∀ (d i : ℕ) (acc : ℚ), xs.length - 2 - i = d →
      integrateGo xs ys i acc =
        acc + ∑ j in Finset.Ico i (xs.length - 2), integrandTerm xs ys j := by
  intro d
  induction d with
  | zero =>
    intro i acc hd
    rw [integrateGo, if_neg (by omega)]
    rw [Finset.Ico_eq_empty (by omega), Finset.sum_empty, add_zero]
  | succ d ih =>
    intro i acc hd
    have hi : i < xs.length - 2 := by omega
    rw [integrateGo, if_pos hi, ih (i + 1) _ (by omega),
      Finset.sum_eq_sum_Ico_succ_bot hi]
    unfold integrandTerm
    ring

/-- C3: for equal-length `xs` and `ys`, `integrate xs ys` returns the sum
over `i ∈ [0, len-2)` of `((ys[i]+ys[i+1])/2) * (xs[i+1]-xs[i])` (so the
final interval between indices `len-2` and `len-1` is dropped), and the
result is `0` whenever `len ≤ 2`; unequal lengths fail the assertion. -/
theorem integrate_spec (xs ys : List ℚ) (h : xs.length = ys.length) :
    integrate xs ys =
      some (∑ j in Finset.range (xs.length - 2), integrandTerm xs ys j) ∧
    (xs.length ≤ 2 → integrate xs ys = some 0) := by
  have hmain : integrate xs ys =
      some (∑ j in Finset.range (xs.length - 2), integrandTerm xs ys j) := by
    rw [integrate, if_pos h, integrateGo_eq xs ys (xs.length - 2) 0 0 (by omega)]
    rw [zero_add, Finset.range_eq_Ico]
  refine ⟨hmain, fun hle => ?_⟩
  rw [hmain]
  have : xs.length - 2 = 0 := by omega
  rw [this, Finset.range_zero, Finset.sum_empty]

/-- Witness for `integrate_spec` at `xs = [0,1,2,3]`, `ys = [1,1,1,1]`:
the lengths agree and the integral is `2` (the last interval's
contribution is dropped). -/
theorem integrate_spec_witness :
    ([0, 1, 2, 3] : List ℚ).length = ([1, 1, 1, 1] : List ℚ).length ∧
    integrate [0, 1, 2, 3] [1, 1, 1, 1] = some 2 := by
  refine ⟨rfl, ?_⟩
  have h := (integrate_spec [0, 1, 2, 3] [1, 1, 1, 1] rfl).1
  rw [h]
  norm_num [Finset.sum_range_succ, integrandTerm]

theorem linspace_ok (s e : ℚ) (n : ℕ) (hse : s < e) (hn : 2 ≤ n) :
    ∃ l, linspace s e n = .ok l ∧
      l.length = n ∧
      l.getD 0 0 = s ∧
      l.getD (n - 1) 0 = e ∧
      (∀ i, i < n → l.getD i 0 = s + (e - s) / ((n : ℚ) - 1) * (i : ℚ)) ∧
      (∀ i, i + 1 < n →
        l.getD (i + 1) 0 - l.getD i 0 = (e - s) / ((n : ℚ) - 1)) := by
  have hne : ((n : ℚ) - 1) ≠ 0 := by
    have : (2 : ℚ) ≤ (n : ℚ) := by exact_mod_cast hn
    linarith
  refine ⟨(List.range n).map fun i : ℕ => s + (e - s) / ((n : ℚ) - 1) * (i : ℚ),
    ?_, by simp, ?_, ?_, ?_, ?_⟩
  · rw [linspace, if_neg (not_le.mpr hse), if_neg (by omega)]
  · rw [getD_map_range _ (by omega)]
    simp
  · rw [getD_map_range _ (by omega)]
    have hcast : (((n - 1 : ℕ) : ℚ)) = (n : ℚ) - 1 := by
      have : 1 ≤ n := by omega
      push_cast [this]
      ring
    rw [hcast, div_mul_cancel₀ _ hne]
    ring
  · intro i hi
    rw [getD_map_range _ hi]
  · intro i hi
    rw [getD_map_range _ hi, getD_map_range _ (by omega)]
    push_cast
    ring

theorem linspace_error (s e : ℚ) (n : ℕ) (hbad : e ≤ s ∨ n < 2) :
    ∃ msg, linspace s e n = .error msg := by
  rw [linspace]
  rcases le_or_lt e s with hle | hlt
  · rw [if_pos hle]
    exact ⟨_, rfl⟩
  · rw [if_neg (not_le.mpr hlt)]
    have hn : n < 2 := by
      rcases hbad with hbad | hbad
      · exact absurd hbad (not_le.mpr hlt)
      · exact hbad
    rw [if_pos hn]
    exact ⟨_, rfl⟩

/-- C4: `linspace start stop n` with `start < stop` and `n ≥ 2` returns
exactly `n` values, the first equal to `start`, the last equal to `stop`,
in uniform steps of `(stop-start)/(n-1)`; when `start ≥ stop` or `n < 2`
it raises a `ValueError`. -/
theorem linspace_spec (s e : ℚ) (n : ℕ) :
    (s < e → 2 ≤ n →
      ∃ l, linspace s e n = .ok l ∧
        l.length = n ∧
        l.getD 0 0 = s ∧
        l.getD (n - 1) 0 = e ∧
        (∀ i, i < n → l.getD i 0 = s + (e - s) / ((n : ℚ) - 1) * (i : ℚ)) ∧
        (∀ i, i + 1 < n →
          l.getD (i + 1) 0 - l.getD i 0 = (e - s) / ((n : ℚ) - 1))) ∧
    ((e ≤ s ∨ n < 2) → ∃ msg, linspace s e n = .error msg) :=
  ⟨fun hse hn => linspace_ok s e n hse hn, fun hbad => linspace_error s e n hbad⟩

theorem shift_len (m : DistanceMatrix) (c : ℚ) : (m.shift c).len = m.len := by
  unfold DistanceMatrix.shift DistanceMatrix.len
  simp [List.map_map, Function.comp_def]

theorem shift_flattened (m : DistanceMatrix) (c : ℚ) :
    (m.shift c).flattened = m.flattened.map fun v => v + c := by
  unfold DistanceMatrix.shift DistanceMatrix.flattened flatten
  exact (List.map_flatten ..).symm

theorem flatten_nil_foldr (rows : List (List ℚ)) (h : rows.flatten = []) :
    (rows.map List.length).foldr max 0 = 0 := by
  induction rows with
  | nil => rfl
  | cons r rs ih =>
    rw [List.flatten_cons] at h
    obtain ⟨h1, h2⟩ := List.append_eq_nil.mp h
    simp [h1, ih h2]

theorem flattened_ne_nil (m : DistanceMatrix) (h : m.len ≠ 0) :
    m.flattened ≠ [] := by
  intro hnil
  exact h (flatten_nil_foldr m.matrix hnil)

theorem rms_len_error (m n : DistanceMatrix) (thr : Option ℚ)
    (h : ¬ m.len = n.len) :
    m.rms_deviation_sq n thr = .error "Matrices have incompatible dimensions." := by
  unfold DistanceMatrix.rms_deviation_sq
  rw [if_pos h]

theorem rms_units_error (m n : DistanceMatrix) (thr : Option ℚ)
    (hl : m.len = n.len) (h : ¬ m.units = n.units) :
    m.rms_deviation_sq n thr = .error "Matrices to compare must have the same units." := by
  unfold DistanceMatrix.rms_deviation_sq
  rw [if_neg (not_not_intro hl), if_pos h]

theorem rms_none_eq (m n : DistanceMatrix) (hl : m.len = n.len)
    (hu : m.units = n.units) :
    m.rms_deviation_sq n none =
      if (sqDiffs m n).length = 0 then .error "division by zero"
      else .ok ((sqDiffs m n).sum / ((sqDiffs m n).length : ℚ)) := by
  unfold DistanceMatrix.rms_deviation_sq sqDiffs
  rw [if_neg (not_not_intro hl), if_neg (not_not_intro hu)]

theorem rms_zero_eq (m n : DistanceMatrix) :
    m.rms_deviation_sq n (some 0) = m.rms_deviation_sq n none := by
  unfold DistanceMatrix.rms_deviation_sq
  norm_num

theorem rms_thr_eq (m n : DistanceMatrix) (t : ℚ) (hl : m.len = n.len)
    (hu : m.units = n.units) (ht : ¬ t = 0) :
    m.rms_deviation_sq n (some t) =
      (if ((qualPairs m n t).map fun (p : ℚ × ℚ) => (p.1 - p.2) ^ 2).length = 0
       then .error "division by zero"
       else .ok (((qualPairs m n t).map fun (p : ℚ × ℚ) => (p.1 - p.2) ^ 2).sum /
          ((((qualPairs m n t).map fun (p : ℚ × ℚ) => (p.1 - p.2) ^ 2).length : ℚ)))) := by
  unfold DistanceMatrix.rms_deviation_sq qualPairs
  rw [if_neg (not_not_intro hl), if_neg (not_not_intro hu)]
  simp only [if_pos ht]

/-- C1 counterexample: at `m = [[1]]`, `n = [[0]]` (same units) with
`distance_threshold = 0` given, no pair satisfies `|a - b| < 0`, yet the
call does not fail with a divide-by-zero error: it returns the unfiltered
mean `1` (whose square root is the Python return value `1.0`). -/
theorem rms_deviation_claim_counterexample :
    DistanceMatrix.rms_deviation_sq ⟨[[1]], "angstroms"⟩ ⟨[[0]], "angstroms"⟩
        (some 0) = .ok 1 ∧
    qualPairs ⟨[[1]], "angstroms"⟩ ⟨[[0]], "angstroms"⟩ 0 = [] := by
  refine ⟨?_, ?_⟩
  · norm_num [DistanceMatrix.rms_deviation_sq, DistanceMatrix.len,
      DistanceMatrix.flattened, flatten]
  · norm_num [qualPairs, DistanceMatrix.flattened, flatten]

/-- C1 (amended): `rms_deviation` raises the dimension error when the
lengths differ, then the unit-mismatch error when the units differ;
otherwise with no threshold it returns the square root of the mean of all
squared cellwise differences over the flattened forms (failing with
divide-by-zero when there are no pairs), and with a NONZERO threshold it
restricts to pairs whose absolute difference is strictly below the
threshold, failing with divide-by-zero when none qualify.  (A threshold of
`0` is falsy in Python and selects the unfiltered branch, which is the
correction; the returned value is stated as the radicand of the final
`math.sqrt`, see `rms_deviation_sq`.) -/
theorem rms_deviation_spec (m n : DistanceMatrix) (thr : Option ℚ) :
    (¬ m.len = n.len →
      m.rms_deviation_sq n thr = .error "Matrices have incompatible dimensions.") ∧
    (m.len = n.len → ¬ m.units = n.units →
      m.rms_deviation_sq n thr = .error "Matrices to compare must have the same units.") ∧
    (m.len = n.len → m.units = n.units →
      (m.rms_deviation_sq n none =
        if (sqDiffs m n).length = 0 then .error "division by zero"
        else .ok ((sqDiffs m n).sum / ((sqDiffs m n).length : ℚ))) ∧
      (∀ t : ℚ, ¬ t = 0 →
        (qualPairs m n t = [] →
          m.rms_deviation_sq n (some t) = .error "division by zero") ∧
        (¬ qualPairs m n t = [] →
          m.rms_deviation_sq n (some t) =
            .ok (((qualPairs m n t).map fun (p : ℚ × ℚ) => (p.1 - p.2) ^ 2).sum /
              (((qualPairs m n t).length : ℚ)))))) := by
  refine ⟨rms_len_error m n thr, rms_units_error m n thr,
    fun hl hu => ⟨rms_none_eq m n hl hu, fun t ht => ⟨?_, ?_⟩⟩⟩
  · intro hq
    rw [rms_thr_eq m n t hl hu ht, hq]
    rfl
  · intro hq
    rw [rms_thr_eq m n t hl hu ht,
      if_neg (by simp [List.length_eq_zero, hq])]
    rw [List.length_map]

/-- Witness for `rms_deviation_spec` at `m = [[1]]`, `n = [[0]]`,
`thr = some 2`: the matrices have equal length and units, the pair `(1,0)`
qualifies under threshold `2`, and the call returns the mean `1`. -/
theorem rms_deviation_spec_witness :
    (⟨[[1]], "angstroms"⟩ : DistanceMatrix).len =
      (⟨[[0]], "angstroms"⟩ : DistanceMatrix).len ∧
    (⟨[[1]], "angstroms"⟩ : DistanceMatrix).units =
      (⟨[[0]], "angstroms"⟩ : DistanceMatrix).units ∧
    ¬ (2 : ℚ) = 0 ∧
    ¬ qualPairs ⟨[[1]], "angstroms"⟩ ⟨[[0]], "angstroms"⟩ 2 = [] ∧
    DistanceMatrix.rms_deviation_sq ⟨[[1]], "angstroms"⟩ ⟨[[0]], "angstroms"⟩
        (some 2) =
      .ok ((((qualPairs ⟨[[1]], "angstroms"⟩ ⟨[[0]], "angstroms"⟩ 2).map
          fun (p : ℚ × ℚ) => (p.1 - p.2) ^ 2).sum) /
        (((qualPairs ⟨[[1]], "angstroms"⟩ ⟨[[0]], "angstroms"⟩ 2).length : ℚ))) := by
  have hq0 : ¬ qualPairs ⟨[[1]], "angstroms"⟩ ⟨[[0]], "angstroms"⟩ 2 = [] := by
    norm_num [qualPairs, DistanceMatrix.flattened, flatten]
  refine ⟨rfl, rfl, by norm_num, hq0, ?_⟩
  exact (((rms_deviation_spec ⟨[[1]], "angstroms"⟩ ⟨[[0]], "angstroms"⟩
    (some 2)).2.2 rfl rfl).2 2 (by norm_num)).2 hq0

/-- C5: shifting a matrix by an integer `k ∈ [1..9]` and comparing with
the original by `rms_deviation` yields exactly `|k|`: the computed mean of
squared differences is `k²`, whose square root is `|k|`.  The matrix must
be non-empty for the mean to exist. -/
theorem shift_rms_deviation (m : DistanceMatrix) (k : ℤ) (_h1 : 1 ≤ k)
    (_h9 : k ≤ 9) (hm : ¬ m.len = 0) :
    ∃ r : ℚ, (m.shift (k : ℚ)).rms_deviation_sq m none = .ok r ∧
      Real.sqrt (r : ℝ) = |(k : ℝ)| := by
  have hzip : ∀ xs : List ℚ,
      ((xs.map fun v => v + (k : ℚ)).zip xs).map
        (fun (p : ℚ × ℚ) => (p.1 - p.2) ^ 2) = xs.map fun _ => (k : ℚ) ^ 2 := by
    intro xs
    induction xs with
    | nil => rfl
    | cons x xs ih =>
      simp only [List.map_cons, List.zip_cons_cons, ih]
      norm_num
  have hsq : sqDiffs (m.shift (k : ℚ)) m = m.flattened.map fun _ => (k : ℚ) ^ 2 := by
    rw [sqDiffs, shift_flattened, hzip]
  have hlen0 : ¬ (sqDiffs (m.shift (k : ℚ)) m).length = 0 := by
    rw [hsq, List.length_map, List.length_eq_zero]
    exact flattened_ne_nil m hm
  have hn : ¬ m.flattened.length = 0 := by
    rw [List.length_eq_zero]
    exact flattened_ne_nil m hm
  have hcast : ((m.flattened.length : ℕ) : ℚ) ≠ 0 := Nat.cast_ne_zero.mpr hn
  refine ⟨(k : ℚ) ^ 2, ?_, ?_⟩
  · rw [rms_none_eq _ _ (shift_len m (k : ℚ)) rfl, if_neg hlen0, hsq]
    have hsum : (m.flattened.map fun _ => (k : ℚ) ^ 2).sum =
        (m.flattened.length : ℚ) * (k : ℚ) ^ 2 := by
      simp [List.map_const]
    rw [hsum, List.length_map, mul_div_cancel_left₀ _ hcast]
  · push_cast
    exact Real.sqrt_sq_eq_abs _

/-- Witness for `shift_rms_deviation` at `m = [[1]]` (angstroms), `k = 2`:
the hypotheses `1 ≤ 2 ≤ 9` and `len ≠ 0` hold and the deviation is
`|2| = 2`. -/
theorem shift_rms_deviation_witness :
    (1 : ℤ) ≤ 2 ∧ (2 : ℤ) ≤ 9 ∧
    ¬ (⟨[[1]], "angstroms"⟩ : DistanceMatrix).len = 0 ∧
    ∃ r : ℚ,
      ((⟨[[1]], "angstroms"⟩ : DistanceMatrix).shift ((2 : ℤ) : ℚ)).rms_deviation_sq
          ⟨[[1]], "angstroms"⟩ none = .ok r ∧
      Real.sqrt (r : ℝ) = |((2 : ℤ) : ℝ)| :=
  ⟨by norm_num, by norm_num, by decide,
    shift_rms_deviation ⟨[[1]], "angstroms"⟩ 2 (by norm_num) (by norm_num)
      (by decide)⟩

/-- C10: a `distance_threshold` of `0` is falsy in Python, so
`rms_deviation(other, distance_threshold=0)` behaves exactly as if no
threshold had been given: for matrices of equal length and identical
units it takes the unfiltered branch, returning the mean of ALL squared
cellwise differences (whose square root is the Python return value)
rather than failing with a divide-by-zero error. -/
theorem rms_zero_threshold (m n : DistanceMatrix) (hl : m.len = n.len)
    (hu : m.units = n.units) :
    m.rms_deviation_sq n (some 0) = m.rms_deviation_sq n none ∧
    (¬ sqDiffs m n = [] →
      m.rms_deviation_sq n (some 0) =
        .ok ((sqDiffs m n).sum / ((sqDiffs m n).length : ℚ))) := by
  refine ⟨rms_zero_eq m n, fun hne => ?_⟩
  rw [rms_zero_eq m n, rms_none_eq m n hl hu,
    if_neg (by rwa [List.length_eq_zero])]

/-- Witness for `rms_zero_threshold` at `m = [[1]]`, `n = [[0]]`: equal
lengths and units, a non-empty difference list, and threshold `0` gives
the same result as no threshold. -/
theorem rms_zero_threshold_witness :
    (⟨[[1]], "angstroms"⟩ : DistanceMatrix).len =
      (⟨[[0]], "angstroms"⟩ : DistanceMatrix).len ∧
    (⟨[[1]], "angstroms"⟩ : DistanceMatrix).units =
      (⟨[[0]], "angstroms"⟩ : DistanceMatrix).units ∧
    DistanceMatrix.rms_deviation_sq ⟨[[1]], "angstroms"⟩ ⟨[[0]], "angstroms"⟩
        (some 0) =
      DistanceMatrix.rms_deviation_sq ⟨[[1]], "angstroms"⟩ ⟨[[0]], "angstroms"⟩
        none :=
  ⟨rfl, rfl, (rms_zero_threshold ⟨[[1]], "angstroms"⟩ ⟨[[0]], "angstroms"⟩
    rfl rfl).1⟩

theorem buildMatrix_error (lines : List (List Field)) :
    ∀ (h : ℕ) (e : String), buildMatrix lines h = .error e →
      e = "Data lines in input file should be in order of ascending length." := by
  induction lines with
  | nil =>
    intro h e he
    simp [buildMatrix] at he
  | cons line rest ih =>
    intro h e he
    rw [buildMatrix] at he
    by_cases hlen : line.length = h + 1
    · rw [if_pos hlen] at he
      by_cases hnum : line.all Field.is_numeric
      · rw [if_pos hnum] at he
        cases heq : buildMatrix rest (h + 1) with
        | ok m => rw [heq] at he ; cases he
        | error e2 =>
          rw [heq] at he
          cases he
          exact ih (h + 1) _ heq
      · rw [if_neg hnum] at he
        exact ih h e he
    · rw [if_neg hlen] at he
      cases he
      rfl

theorem buildMatrix_ok_lengths (lines : List (List Field)) :
    ∀ (h : ℕ) (M : List (List ℚ)), buildMatrix lines h = .ok M →
      ∀ i, i < M.length → (M.getD i []).length = h + i + 1 := by
  induction lines with
  | nil =>
    intro h M hM i hi
    rw [buildMatrix] at hM
    cases hM
    simp at hi
  | cons line rest ih =>
    intro h M hM i hi
    rw [buildMatrix] at hM
    by_cases hlen : line.length = h + 1
    · rw [if_pos hlen] at hM
      by_cases hnum : line.all Field.is_numeric
      · rw [if_pos hnum] at hM
        cases heq : buildMatrix rest (h + 1) with
        | error e2 => rw [heq] at hM ; cases hM
        | ok M2 =>
          rw [heq] at hM
          cases hM
          cases i with
          | zero => simpa using hlen
          | succ j =>
            have := ih (h + 1) M2 heq j (by simpa using hi)
            simpa [Nat.add_assoc, Nat.add_comm, Nat.add_left_comm] using this
      · rw [if_neg hnum] at hM
        exact ih h M hM i hi
    · rw [if_neg hlen] at hM
      cases hM

/-- C2 counterexample: the single input row `["a"]` has the expected
length `1` but a non-numeric field; the claim demands a `ValueError`, yet
`from_csv` succeeds, silently dropping the row and returning the empty
matrix. -/
theorem from_csv_claim_counterexample :
    from_csv [[Field.txt "a"]] DEFAULT_UNIT = .ok ⟨[], DEFAULT_UNIT⟩ ∧
    Field.is_numeric (Field.txt "a") = false :=
  ⟨rfl, rfl⟩

/-- C2 (amended): `from_csv` fails with the ascending-length `ValueError`
exactly on rows whose length is not one more than the number of rows
accepted so far — the loop errors the moment it meets a row of unexpected
length, and that is its only data error; a row of the expected length
containing a non-numeric field raises nothing — it is skipped silently,
without advancing the expected length — so every matrix returned carries
the requested units and has row `i` of length `i + 1` (the
lower-triangular invariant). -/
theorem from_csv_spec (lines : List (List Field)) (units : String)
    (hu : units ∈ SUPPORTED_UNITS) :
    (∀ e, from_csv lines units = .error e →
      e = "Data lines in input file should be in order of ascending length.") ∧
    (∀ M, from_csv lines units = .ok M →
      M.units = units ∧
      ∀ i, i < M.matrix.length → (M.matrix.getD i []).length = i + 1) ∧
    (∀ (line : List Field) (rest : List (List Field)) (h : ℕ),
      line.length = h + 1 → line.all Field.is_numeric = false →
      buildMatrix (line :: rest) h = buildMatrix rest h) ∧
    (∀ (line : List Field) (rest : List (List Field)) (h : ℕ),
      ¬ line.length = h + 1 →
      buildMatrix (line :: rest) h =
        .error "Data lines in input file should be in order of ascending length.") := by
  refine ⟨?_, ?_, ?_, ?_⟩
  · intro e he
    rw [from_csv] at he
    cases heq : buildMatrix (stripEmpties lines) 0 with
    | ok m =>
      rw [heq] at he
      simp only [DistanceMatrix.make, if_pos hu] at he
      cases he
    | error e2 =>
      rw [heq] at he
      cases he
      exact buildMatrix_error _ 0 _ heq
  · intro M hM
    rw [from_csv] at hM
    cases heq : buildMatrix (stripEmpties lines) 0 with
    | error e2 => rw [heq] at hM ; cases hM
    | ok m =>
      rw [heq] at hM
      simp only [DistanceMatrix.make, if_pos hu] at hM
      cases hM
      refine ⟨rfl, fun i hi => ?_⟩
      simpa using buildMatrix_ok_lengths _ 0 m heq i hi
  · intro line rest h hlen hnum
    rw [buildMatrix, if_pos hlen, if_neg (by simp [hnum])]
  · intro line rest h hlen
    rw [buildMatrix, if_neg hlen]

/-- Witness for `from_csv_spec`: the default unit is supported; at one
concrete instance the skip clause applies (the non-numeric row `["a"]` of
expected length `1` is dropped without an error), and at another the
failure clause applies (the first row `[1, 2]` has length `2 ≠ 1`, so the
loop — and with it `from_csv` — fails with the ascending-length
`ValueError`). -/
theorem from_csv_spec_witness :
    DEFAULT_UNIT ∈ SUPPORTED_UNITS ∧
    ([Field.txt "a"] : List Field).length = 0 + 1 ∧
    ([Field.txt "a"] : List Field).all Field.is_numeric = false ∧
    buildMatrix [[Field.txt "a"]] 0 = buildMatrix [] 0 ∧
    ¬ ([Field.num 1, Field.num 2] : List Field).length = 0 + 1 ∧
    buildMatrix [[Field.num 1, Field.num 2]] 0 =
      .error "Data lines in input file should be in order of ascending length." ∧
    from_csv [[Field.num 1, Field.num 2]] DEFAULT_UNIT =
      .error "Data lines in input file should be in order of ascending length." :=
  ⟨by decide, rfl, rfl,
    (from_csv_spec [] DEFAULT_UNIT (by decide)).2.2.1 [Field.txt "a"] [] 0 rfl rfl,
    by decide,
    (from_csv_spec [] DEFAULT_UNIT (by decide)).2.2.2
      [Field.num 1, Field.num 2] [] 0 (by decide),
    rfl⟩

theorem mem_zip_append (l t : List ℚ) : ∀ q ∈ l.zip (l ++ t), q.1 = q.2 := by
  induction l with
  | nil =>
    intro q hq
    simp at hq
  | cons x xs ih =>
    intro q hq
    rw [List.cons_append, List.zip_cons_cons] at hq
    rcases List.mem_cons.mp hq with h | h
    · rw [h]
    · exact ih q h

/-- C9: `__eq__` performs no shape check.  For matrices whose unit strings
start with the same character, equality holds exactly when every
`zip`-paired pair of cells (rows paired in order, cells paired in order
within each row; surplus rows and surplus cells silently dropped by `zip`)
agrees; in particular a matrix compares equal to any extension of itself
by extra rows or by lengthened rows. -/
theorem beq_ignores_shape (m n : DistanceMatrix)
    (hu : m.units.front = n.units.front) :
    (m.beq n = true ↔
      ∀ p ∈ m.matrix.zip n.matrix, ∀ q ∈ p.1.zip p.2, q.1 = q.2) ∧
    ((∀ p ∈ m.matrix.zip n.matrix, ∃ t, p.2 = p.1 ++ t) → m.beq n = true) := by
  have hbeq : m.beq n =
      ((m.matrix.zip n.matrix).all fun rows =>
        (rows.1.zip rows.2).all fun items => items.1 == items.2) := by
    unfold DistanceMatrix.beq
    rw [if_neg (not_not_intro hu)]
  have hiff : m.beq n = true ↔
      ∀ p ∈ m.matrix.zip n.matrix, ∀ q ∈ p.1.zip p.2, q.1 = q.2 := by
    rw [hbeq]
    simp [List.all_eq_true]
  refine ⟨hiff, fun hext => hiff.mpr ?_⟩
  intro p hp q hq
  obtain ⟨t, ht⟩ := hext p hp
  rw [ht] at hq
  exact mem_zip_append p.1 t q hq

/-- Witness for `beq_ignores_shape`: `[[1]]` (angstroms) compares equal to
its extension `[[1],[2,3]]` (unit `"a"`, same first character). -/
theorem beq_ignores_shape_witness :
    (⟨[[1]], "angstroms"⟩ : DistanceMatrix).units.front =
      (⟨[[1], [2, 3]], "a"⟩ : DistanceMatrix).units.front ∧
    DistanceMatrix.beq ⟨[[1]], "angstroms"⟩ ⟨[[1], [2, 3]], "a"⟩ = true := by
  refine ⟨rfl, (beq_ignores_shape ⟨[[1]], "angstroms"⟩ ⟨[[1], [2, 3]], "a"⟩
    rfl).2 ?_⟩
  intro p hp
  have hp2 : p ∈ [(([1] : List ℚ), ([1] : List ℚ))] := hp
  rcases List.mem_singleton.mp hp2 with h
  rw [h]
  exact ⟨[], rfl⟩

/-- C6 counterexample: an atom with element code `0` and non-zero
`eigen_sum` (radicand `18`) is NOT returned by `assign` with
`heavy_only = True`, although the claim ("excluding every atom with
element code 1") requires it to appear: the code keeps only
`element > 1`. -/
theorem assign_claim_counterexample :
    SpectralPeak.assign ⟨1, 0, 0, 0, 0, 0, 0, 0, [⟨4, 0, 3, 0, 0⟩]⟩ true = [] ∧
    (⟨4, 0, 3, 0, 0⟩ : Atom) ∈
      (⟨1, 0, 0, 0, 0, 0, 0, 0, [⟨4, 0, 3, 0, 0⟩]⟩ : SpectralPeak).atoms ∧
    ¬ Real.sqrt ((Atom.eigen_sum_sq ⟨4, 0, 3, 0, 0⟩ : ℚ) : ℝ) = 0 ∧
    ¬ (⟨4, 0, 3, 0, 0⟩ : Atom).element = 1 := by
  refine ⟨?_, List.mem_singleton.mpr rfl, ?_, by norm_num⟩
  · simp [SpectralPeak.assign, List.insertionSort, List.orderedInsert,
      Atom.eigen_sum_sq]
  · have h18 : (Atom.eigen_sum_sq ⟨4, 0, 3, 0, 0⟩ : ℚ) = 18 := by
      norm_num [Atom.eigen_sum_sq]
    rw [h18]
    rw [show ((18 : ℚ) : ℝ) = 18 by norm_num]
    positivity

/-- C6 (amended): `assign` returns the atoms of the peak whose `eigen_sum`
is non-zero, restricted when `heavy_only` is true to element codes
STRICTLY GREATER than `1` (so element `1` is excluded, but so is any code
`≤ 1`), in non-increasing `eigen_sum` order; with `heavy_only = True` no
atom of element code `1` appears. -/
theorem assign_spec (p : SpectralPeak) (heavy_only : Bool) :
    (∀ a : Atom, a ∈ p.assign heavy_only ↔
      (a ∈ p.atoms ∧ ¬ Real.sqrt ((a.eigen_sum_sq : ℚ) : ℝ) = 0 ∧
        (1 < a.element ∨ heavy_only = false))) ∧
    (p.assign heavy_only).Pairwise
      (fun a b : Atom => Real.sqrt ((b.eigen_sum_sq : ℚ) : ℝ) ≤
        Real.sqrt ((a.eigen_sum_sq : ℚ) : ℝ)) ∧
    (heavy_only = true → ∀ a ∈ p.assign heavy_only, ¬ a.element = 1) := by
  have hnonneg : ∀ a : Atom, (0 : ℝ) ≤ ((a.eigen_sum_sq : ℚ) : ℝ) := by
    intro a
    have : (0 : ℚ) ≤ a.eigen_sum_sq := by
      unfold Atom.eigen_sum_sq
      positivity
    exact_mod_cast this
  have hsqrt : ∀ a : Atom,
      (¬ Real.sqrt ((a.eigen_sum_sq : ℚ) : ℝ) = 0) ↔ ¬ a.eigen_sum_sq = 0 := by
    intro a
    rw [not_iff_not, Real.sqrt_eq_zero (hnonneg a)]
    exact_mod_cast Iff.rfl
  have hperm : ∀ a : Atom,
      a ∈ (List.insertionSort atomLE p.atoms).reverse ↔ a ∈ p.atoms := by
    intro a
    rw [List.mem_reverse]
    exact (List.perm_insertionSort atomLE p.atoms).mem_iff
  refine ⟨?_, ?_, ?_⟩
  · intro a
    unfold SpectralPeak.assign
    rw [List.mem_filter, hperm a, decide_eq_true_eq, hsqrt a]
  · have hsorted : (List.insertionSort atomLE p.atoms).Pairwise atomLE :=
      List.sorted_insertionSort atomLE p.atoms
    have hrev : ((List.insertionSort atomLE p.atoms).reverse).Pairwise
        (fun a b : Atom => atomLE b a) := List.pairwise_reverse.mpr hsorted
    have hfilt : (p.assign heavy_only).Pairwise (fun a b : Atom => atomLE b a) :=
      hrev.sublist (List.filter_sublist _)
    refine hfilt.imp ?_
    intro a b hab
    exact Real.sqrt_le_sqrt (by exact_mod_cast hab)
  · intro hheavy a ha
    unfold SpectralPeak.assign at ha
    rw [List.mem_filter, decide_eq_true_eq] at ha
    rcases ha.2.2 with h | h
    · omega
    · rw [hheavy] at h
      cases h

/-- Witness for `assign_spec` at a peak with a hydrogen, a carbon and a
zero-displacement atom, `heavy_only = true`: no element-1 atom is
returned. -/
theorem assign_spec_witness :
    (true : Bool) = true ∧
    ∀ a ∈ SpectralPeak.assign
        ⟨1, 0, 0, 0, 0, 0, 0, 0, [⟨1, 1, 1, 0, 0⟩, ⟨2, 6, 0, 2, 0⟩]⟩ true,
      ¬ a.element = 1 :=
  ⟨rfl, (assign_spec ⟨1, 0, 0, 0, 0, 0, 0, 0,
    [⟨1, 1, 1, 0, 0⟩, ⟨2, 6, 0, 2, 0⟩]⟩ true).2.2 rfl⟩

/-- C7: the explicit `x_min`/`x_max` arguments of `Spectrum.x_array` have
no effect: with any supplied bounds the result is the same as with the
defaults, namely `linspace` over `[min(frequencies), max(frequencies)]`
with the same `points`. -/
theorem x_array_ignores_bounds (s : Spectrum) (x_min x_max : ℚ) (points : ℕ)
    (_h : listMin s.frequencies < listMax s.frequencies) :
    s.x_array (some x_min) (some x_max) points = s.x_array none none points ∧
    s.x_array none none points =
      linspace (listMin s.frequencies) (listMax s.frequencies) points :=
  ⟨rfl, rfl⟩

/-- Witness for `x_array_ignores_bounds` at `frequencies = [0, 10]` with
explicit bounds `3` and `4`. -/
theorem x_array_ignores_bounds_witness :
    listMin [0, 10] < listMax [0, 10] ∧
    Spectrum.x_array ⟨[0, 10], [1, 2], LORENTZIAN_WIDTH⟩ (some 3) (some 4) 5 =
      Spectrum.x_array ⟨[0, 10], [1, 2], LORENTZIAN_WIDTH⟩ none none 5 := by
  have hmm : listMin [0, 10] < listMax [0, 10] := by
    norm_num [listMin, listMax]
  exact ⟨hmm, (x_array_ignores_bounds ⟨[0, 10], [1, 2], LORENTZIAN_WIDTH⟩
    3 4 5 hmm).1⟩

/-- C8: `as_list(n)` passes its argument into `x_array`'s `x_min` slot,
so the fit function is evaluated at the default `NUMBER_OF_POINTS = 5000`
sample points whatever `n` is: the call equals `as_list` at the default,
equals the fit mapped over the default `x_array`, and returns a list of
length `5000` (given distinct frequency extremes). -/
theorem as_list_ignores_argument (s : Spectrum) (n : ℚ)
    (h : listMin s.frequencies < listMax s.frequencies) :
    s.as_list n = s.as_list (NUMBER_OF_POINTS : ℚ) ∧
    s.as_list n = (s.x_array none none NUMBER_OF_POINTS).map
      (fun xs => xs.map s.fit_function) ∧
    ∃ l, s.as_list n = .ok l ∧ l.length = NUMBER_OF_POINTS := by
  refine ⟨rfl, rfl, ?_⟩
  obtain ⟨l, hl, hlen, -, -, -, -⟩ :=
    linspace_ok (listMin s.frequencies) (listMax s.frequencies)
      NUMBER_OF_POINTS h (by norm_num [NUMBER_OF_POINTS])
  refine ⟨l.map s.fit_function, ?_, by rw [List.length_map, hlen]⟩
  show (s.x_array (some n) none NUMBER_OF_POINTS).map
    (fun xs => xs.map s.fit_function) = _
  have hx : s.x_array (some n) none NUMBER_OF_POINTS = .ok l := hl
  rw [hx]
  rfl

/-- Witness for `as_list_ignores_argument` at `frequencies = [0, 10]`,
`n = 7`: the returned curve has `5000` points. -/
theorem as_list_ignores_argument_witness :
    listMin [0, 10] < listMax [0, 10] ∧
    ∃ l, Spectrum.as_list ⟨[0, 10], [1, 2], LORENTZIAN_WIDTH⟩ 7 = .ok l ∧
      l.length = NUMBER_OF_POINTS := by
  have hmm : listMin [0, 10] < listMax [0, 10] := by
    norm_num [listMin, listMax]
  exact ⟨hmm, (as_list_ignores_argument ⟨[0, 10], [1, 2], LORENTZIAN_WIDTH⟩
    7 hmm).2.2⟩

/-- Witness for `linspace_spec`: at `start = 0 < stop = 1`, `n = 3` the
call succeeds with three points, and at `start = 1 ≥ stop = 0` it
errors. -/
theorem linspace_spec_witness :
    (0 : ℚ) < 1 ∧ 2 ≤ 3 ∧
    (∃ l, linspace 0 1 3 = .ok l ∧ l.length = 3) ∧
    (∃ msg, linspace 1 0 3 = .error msg) := by
  obtain ⟨l, hl, hlen, -, -, -, -⟩ :=
    (linspace_spec 0 1 3).1 (by norm_num) (by norm_num)
  exact ⟨by norm_num, by norm_num, ⟨l, hl, hlen⟩,
    (linspace_spec 1 0 3).2 (Or.inl (by norm_num))⟩

end Raman
